import Mathlib

/-! User data-access layer (`dal/user.go`).

A shallow embedding of the five operations of `UserDal` (Get, Create, Update,
Delete, Count) as state-passing functions over an in-memory key-value store,
followed by the properties of the design that hold of them and the places
where they do not.

Conventions.
* Go `error` values are `Option GoError`; `none` is `nil`.
* `int64` values are integers; the one place where the range matters is the
  counter increment, which refuses to step past `2^63 - 1`.
* A sorted-set score is a `float64`.  Every score the program writes is
  `float64(id)` for an `int64` id, whose value is an integer; scores are kept
  as that integer value, and `float64` is the rounding conversion.
-/

namespace UserStore

/-! ## Association lists -/

namespace Assoc

/-- Value bound to the first occurrence of key `k`. -/
def get? {β : Type} (k : String) : List (String × β) → Option β
  | [] => none
  | (k', v) :: t => if k' = k then some v else get? k t

/-- Bind `k` to `v`: overwrite the first occurrence in place, or append. -/
def put {β : Type} (k : String) (v : β) : List (String × β) → List (String × β)
  | [] => [(k, v)]
  | (k', v') :: t => if k' = k then (k, v) :: t else (k', v') :: put k v t

/-- Remove every binding of `k`. -/
def del {β : Type} (k : String) : List (String × β) → List (String × β)
  | [] => []
  | (k', v') :: t => if k' = k then del k t else (k', v') :: del k t

end Assoc

/-! ## Constants and data model -/

def idKey : String := "userid"
def userNameSetKey : String := "usernames"
def emailSetKey : String := "emails"
def userKeyPrefix : String := "user"
def keySeparator : String := ":"

/-- Go error values, by where they come from. -/
inductive GoError where
  /-- An error made by `errors.New` with the given text. -/
  | New (text : String)
  /-- The store client's `redis.Nil`: the reply to a command was nil. -/
  | Nil
  /-- An error reply of the store itself. -/
  | Reply (text : String)
  /-- The error of the map decoder, with the names of the fields it could not fill. -/
  | Decode (fields : List String)
deriving DecidableEq, Repr

/-- Stand-in for `errors.New`. -/
def errors.New (text : String) : GoError := GoError.New text

/-- Modelled from the spec: the declaration of `models.User` is missing from
the sources.  Section 3 of the design gives it an `id` (64-bit signed integer),
a `name` and an `email` (strings); these are the three fields `dal/user.go`
reads and writes (`user.Id`, `user.Name`, `user.Email`). -/
structure User where
  Id : Int
  Name : String
  Email : String
deriving DecidableEq, Repr

/-- The zero value of `models.User` (`var user models.User`). -/
def User.zero : User := { Id := 0, Name := "", Email := "" }

/-- A sorted set: member to score. -/
abbrev ZSet := List (String × Int)

/-- A hash: field name to string value. -/
abbrev Hash := List (String × String)

/-- Modelled from the spec: the declaration of the package-level `client` is
missing from the sources.  The store it talks to is the storage layout of
section 3: the counter kept under `idKey`, the sorted set kept under
`userNameSetKey`, the sorted set kept under `emailSetKey`, and the hashes,
looked up by their key. -/
structure Store where
  userid : Int
  usernames : ZSet
  emails : ZSet
  hashes : List (String × Hash)
deriving DecidableEq, Repr

/-- The store before anything was written. -/
def Store.empty : Store := { userid := 0, usernames := [], emails := [], hashes := [] }

/-- Number of low bits a natural number loses when it is cut to 53 bits. -/
def float64.shift : Nat → Nat → Nat
  | 0, _ => 0
  | fuel + 1, a => if a < 2 ^ 53 then 0 else float64.shift fuel (a / 2) + 1

/-- Conversion `float64(x)` of an `int64`: the nearest number with a 53-bit
significand, ties going to the even significand.  The result is an integer;
it is `x` itself up to `2^53` in absolute value. -/
def float64 (x : Int) : Int :=
  let a := x.natAbs
  let e := float64.shift 64 a
  let q := a / 2 ^ e
  let r := a % 2 ^ e
  let q1 := if 2 * r > 2 ^ e ∨ (2 * r = 2 ^ e ∧ q % 2 = 1) then q + 1 else q
  x.sign * ((q1 * 2 ^ e : Nat) : Int)

/-! ## Store commands, as the store client reports them -/

namespace redis

/-- Value (`Val()`) of `ZSCORE key member`: the score, 0 when the member is absent. -/
def ZScore (z : ZSet) (member : String) : Int := (Assoc.get? member z).getD 0

/-- Error (`Err()`) of `ZSCORE key member`: `redis.Nil` when the member is
absent (the store replies nil), none otherwise. -/
def ZScoreErr (z : ZSet) (member : String) : Option GoError :=
  match Assoc.get? member z with
  | some _ => none
  | none => some GoError.Nil

/-- Error returned by `Exec()` on a pipeline: the error of the first command
that has one. -/
def Exec : List (Option GoError) → Option GoError
  | [] => none
  | some e :: _ => some e
  | none :: rest => Exec rest

/-- Command `ZADD key NX score member`: only adds a new member. -/
def ZAddNX (z : ZSet) (score : Int) (member : String) : ZSet :=
  if (Assoc.get? member z).isSome then z else Assoc.put member score z

/-- Command `ZADD key XX score member`: only rescores an existing member. -/
def ZAddXX (z : ZSet) (score : Int) (member : String) : ZSet :=
  if (Assoc.get? member z).isSome then Assoc.put member score z else z

/-- Command `ZREM key member`. -/
def ZRem (z : ZSet) (member : String) : ZSet := Assoc.del member z

/-- Command `HGETALL key`: every field of the hash, nothing for a missing key. -/
def HGetAll (hs : List (String × Hash)) (key : String) : Hash := (Assoc.get? key hs).getD []

/-- Command `HMSET key field value ...`: sets the given fields of the hash under
`key`, creating it when missing and keeping its other fields. -/
def HMSet (hs : List (String × Hash)) (key : String) (fields : List (String × String)) :
    List (String × Hash) :=
  Assoc.put key (fields.foldl (fun h kv => Assoc.put kv.1 kv.2 h) (HGetAll hs key)) hs

/-- Command `DEL key`. -/
def Del (hs : List (String × Hash)) (key : String) : List (String × Hash) := Assoc.del key hs

/-- Command `EXISTS key`: 1 when the key is there, else 0. -/
def Exists (hs : List (String × Hash)) (key : String) : Int :=
  if (Assoc.get? key hs).isSome then 1 else 0

/-- Command `INCR key` on the counter: the next value, or the store's overflow
error at the top of the signed 64-bit range. -/
def Incr (n : Int) : Except GoError Int :=
  if n < 2 ^ 63 - 1 then .ok (n + 1)
  else .error (GoError.Reply "ERR increment or decrement would overflow")

end redis

/-! ## Conversions between `User` and stored fields -/

/-- A field value as `structs.Map` hands it over. -/
inductive GoValue where
  | int64 (v : Int)
  | string (v : String)
deriving DecidableEq, Repr

/-- How the store client writes a value as a command argument: integers in
decimal, strings as they are.  Everything stored in a hash is a string. -/
def GoValue.arg : GoValue → String
  | .int64 v => toString v
  | .string v => v

/-- Conversion `structs.Map(user)`: one entry per field, keyed by the field's
name (the fields carry no renaming tags). -/
def structs.Map (u : User) : List (String × GoValue) :=
  [("Id", .int64 u.Id), ("Name", .string u.Name), ("Email", .string u.Email)]

/-- Two keys are the same up to letter case (for the three field names, which
are plain letters, this is what `strings.EqualFold` tests). -/
def mapstructure.equalFold (a b : String) : Bool :=
  a.data.map Char.toLower == b.data.map Char.toLower

/-- Entry of the input map that the decoder uses for the struct field `name`:
the entry with exactly that key, else an entry whose key equals it up to
letter case (the first one, where the input has several). -/
def mapstructure.entry (name : String) (input : Hash) : Option String :=
  match Assoc.get? name input with
  | some v => some v
  | none => (input.find? (fun kv => mapstructure.equalFold kv.1 name)).map (fun kv => kv.2)

/-- Conversion `mapstructure.Decode(res, &user)` for `res : map[string]string`.
It fills each struct field from the entry found for it and returns the struct
together with the error it reports.  `Decode` is the strict decoder (the weakly
typed one is `WeakDecode`): a string is accepted for a string field, but for an
`int64` field a string is an unconvertible type, so an entry for `Id` is
reported as an error and the field keeps its value.  Fields with no entry keep
their value. -/
def mapstructure.Decode (input : Hash) (output : User) : User × Option GoError :=
  let err : Option GoError :=
    match mapstructure.entry "Id" input with
    | some _ => some (GoError.Decode ["Id"])
    | none => none
  let name := (mapstructure.entry "Name" input).getD output.Name
  let email := (mapstructure.entry "Email" input).getD output.Email
  ({ Id := output.Id, Name := name, Email := email }, err)

/-! ## The data-access layer -/

/-- Key of the hash of user `id`: `fmt.Sprintf("%s%s%d", userKeyPrefix, keySeparator, id)`. -/
def getPrefixedDataStoreId (id : Int) : String :=
  userKeyPrefix ++ keySeparator ++ toString id

/-- Operation `UserDal.Get`: the returned pointer (`none` is `nil`) and error. -/
def UserDal.Get (s : Store) (id : Int) : Option User × Option GoError :=
  let user : User := User.zero
  let res := redis.HGetAll s.hashes (getPrefixedDataStoreId id)
  -- `err` is the error of the fetch; `HGETALL` replies with a (possibly empty) list
  let err : Option GoError := none
  if err.isSome then (none, err)
  else
    -- `mapstructure.Decode(res, &user)`: the error it returns is not assigned
    let user := (mapstructure.Decode res user).1
    if err.isSome then (none, err)
    else (some user, none)

/-- Operation `UserDal.Create`: the error, the struct behind `user` after the
call, and the store after the call. -/
def UserDal.Create (s : Store) (user : User) : Option GoError × User × Store :=
  -- first pipeline: both scores in one round trip, then `_, err := pipe.Exec()`
  match redis.Exec [redis.ZScoreErr s.usernames user.Name, redis.ZScoreErr s.emails user.Email] with
  | some err => (some err, user, s)
  | none =>
    let userNameScore := redis.ZScore s.usernames user.Name
    let emailScore := redis.ZScore s.emails user.Email
    if userNameScore > 0 ∨ emailScore > 0 then
      (some (errors.New "user name and/or or email already exists"), user, s)
    else
      match redis.Incr s.userid with
      | .error err => (some err, user, s)
      | .ok incrResult =>
        let s1 : Store := { s with userid := incrResult }
        let user1 : User := { user with Id := incrResult }
        -- second pipeline; its commands reply with counts and a status, so its
        -- `Exec()` returns no error
        let s2 : Store :=
          { s1 with usernames := redis.ZAddNX s1.usernames (float64 incrResult) user1.Name }
        let s3 : Store :=
          { s2 with emails := redis.ZAddNX s2.emails (float64 incrResult) user1.Email }
        let s4 : Store :=
          { s3 with hashes := redis.HMSet s3.hashes (getPrefixedDataStoreId incrResult)
                      ((structs.Map user1).map (fun kv => (kv.1, kv.2.arg))) }
        (none, user1, s4)

/-- Operation `UserDal.Update`: the error and the store after the call. -/
def UserDal.Update (s : Store) (_id : Int) (user : User) : Option GoError × Store :=
  -- first pipeline: both scores in one round trip, then `_, err := pipe.Exec()`
  match redis.Exec [redis.ZScoreErr s.usernames user.Name, redis.ZScoreErr s.emails user.Email] with
  | some err => (some err, s)
  | none =>
    let userNameScore := redis.ZScore s.usernames user.Name
    let emailScore := redis.ZScore s.emails user.Email
    if userNameScore = 0 ∨ emailScore = 0 then
      (some (errors.New "user name and/or or email does not exists"), s)
    else
      -- second pipeline; its `Exec()` returns no error
      let s1 : Store := { s with usernames := redis.ZAddXX s.usernames (float64 user.Id) user.Name }
      let s2 : Store := { s1 with emails := redis.ZAddXX s1.emails (float64 user.Id) user.Email }
      let s3 : Store :=
        { s2 with hashes := redis.HMSet s2.hashes (getPrefixedDataStoreId user.Id)
                    ((structs.Map user).map (fun kv => (kv.1, kv.2.arg))) }
      (none, s3)

/-- Operation `UserDal.Delete`: the error and the store after the call. -/
def UserDal.Delete (s : Store) (id : Int) : Option GoError × Store :=
  let user : User := User.zero
  let res := redis.HGetAll s.hashes (getPrefixedDataStoreId id)
  let err : Option GoError := none
  if err.isSome then (err, s)
  else
    -- `mapstructure.Decode(res, &user)`: the error it returns is not assigned
    let user := (mapstructure.Decode res user).1
    if err.isSome then (err, s)
    else
      -- the pipeline's commands reply with counts, so its `Exec()` returns no error
      let s1 : Store := { s with usernames := redis.ZRem s.usernames user.Name }
      let s2 : Store := { s1 with emails := redis.ZRem s1.emails user.Email }
      let s3 : Store := { s2 with hashes := redis.Del s2.hashes (getPrefixedDataStoreId user.Id) }
      (none, s3)

/-- Operation `UserDal.Count`. -/
def UserDal.Count (s : Store) (id : Int) : Int × Option GoError :=
  (redis.Exists s.hashes (getPrefixedDataStoreId id), none)

/-! ## Running calls one after another -/

/-- A call on the data-access layer. -/
inductive Op where
  | Create (user : User)
  | Update (id : Int) (user : User)
  | Delete (id : Int)
  | Get (id : Int)
  | Count (id : Int)
deriving DecidableEq, Repr

/-- Store after one call. -/
def Op.next (s : Store) : Op → Store
  | .Create user => (UserDal.Create s user).2.2
  | .Update id user => (UserDal.Update s id user).2
  | .Delete id => (UserDal.Delete s id).2
  | .Get _ => s
  | .Count _ => s

/-- Id assigned by the call: the `user.Id` set by a Create that returned no error. -/
def Op.assigned (s : Store) : Op → Option Int
  | .Create user =>
    match (UserDal.Create s user).1 with
    | none => some (UserDal.Create s user).2.1.Id
    | some _ => none
  | _ => none

/-- Ids assigned by the successful Creates of a run, in call order. -/
def assignedIds (s : Store) : List Op → List Int
  | [] => []
  | op :: rest =>
    match Op.assigned s op with
    | some id => id :: assignedIds (Op.next s op) rest
    | none => assignedIds (Op.next s op) rest

/-- Store after a run of Create calls. -/
def runCreates (s : Store) : List User → Store
  | [] => s
  | u :: rest => runCreates (UserDal.Create s u).2.2 rest

/-- The users whose Create succeeded in a run of Create calls, in call order. -/
def created (s : Store) : List User → List User
  | [] => []
  | u :: rest =>
    match (UserDal.Create s u).1 with
    | none => u :: created (UserDal.Create s u).2.2 rest
    | some _ => created (UserDal.Create s u).2.2 rest

/-! ## Predicates and sample stores used in the statements -/

/-- The store a successful Create leaves behind. -/
def createdStore (s : Store) (u : User) : Store :=
  { userid := s.userid + 1,
    usernames := redis.ZAddNX s.usernames (float64 (s.userid + 1)) u.Name,
    emails := redis.ZAddNX s.emails (float64 (s.userid + 1)) u.Email,
    hashes := redis.HMSet s.hashes (getPrefixedDataStoreId (s.userid + 1))
      [("Id", toString (s.userid + 1)), ("Name", u.Name), ("Email", u.Email)] }

/-- Number read from a list of decimal digit characters. -/
def digitsVal (cs : List Char) : Nat := cs.foldl (fun a c => 10 * a + (c.toNat - 48)) 0

/-- Name held by the record stored under the key of `id`. -/
def storedName (s : Store) (id : Int) : String :=
  (mapstructure.Decode (redis.HGetAll s.hashes (getPrefixedDataStoreId id)) User.zero).1.Name

/-- Email held by the record stored under the key of `id`. -/
def storedEmail (s : Store) (id : Int) : String :=
  (mapstructure.Decode (redis.HGetAll s.hashes (getPrefixedDataStoreId id)) User.zero).1.Email

/-- Index consistency: for every id with a record under its key, the members of
the name index scored with that id are exactly the record's name, and the
members of the email index scored with that id are exactly the record's email. -/
def IndexConsistent (s : Store) : Prop :=
  ∀ id : Int, redis.Exists s.hashes (getPrefixedDataStoreId id) = 1 →
    (∀ m, Assoc.get? m s.usernames = some (float64 id) ↔ m = storedName s id) ∧
    (∀ m, Assoc.get? m s.emails = some (float64 id) ↔ m = storedEmail s id)

/-- A store holding one user, alice, under id 1. -/
def aliceStore : Store :=
  { userid := 1, usernames := [("alice", 1)], emails := [("alice@x.com", 1)],
    hashes := [("user:1", [("Id", "1"), ("Name", "alice"), ("Email", "alice@x.com")])] }

/-- A store holding one user, bob, under id 1. -/
def bobStore : Store :=
  { userid := 1, usernames := [("bob", 1)], emails := [("bob@x.com", 1)],
    hashes := [("user:1", [("Id", "1"), ("Name", "bob"), ("Email", "bob@x.com")])] }

/-- A store with no record, whose indexes hold the name bob and the email
bob@x.com with score 0. -/
def reservedStore : Store :=
  { userid := 0, usernames := [("bob", 0)], emails := [("bob@x.com", 0)], hashes := [] }

/-- A store holding one record whose `Id` entry is not a number. -/
def garbledStore : Store :=
  { userid := 1, usernames := [("bob", 1)], emails := [("bob@x.com", 1)],
    hashes := [("user:1", [("Id", "abc"), ("Name", "bob"), ("Email", "bob@x.com")])] }

/-- A store holding eve under the key of id 5 with a different `Id` entry. -/
def eveStore : Store :=
  { userid := 7, usernames := [("eve", 5)], emails := [("eve@x.com", 5)],
    hashes := [("user:5", [("Id", "7"), ("Name", "eve"), ("Email", "eve@x.com")])] }

/-- A store with a record under the key of id 0, a user whose name is the empty
string, and nothing under the key of id 5. -/
def zeroStore : Store :=
  { userid := 3, usernames := [("zed", 0), ("", 3)], emails := [("zed@x.com", 0), ("e@x.com", 3)],
    hashes := [("user:0", [("Id", "0"), ("Name", "zed"), ("Email", "zed@x.com")]),
               ("user:3", [("Id", "3"), ("Name", ""), ("Email", "e@x.com")])] }

/-- A store holding bob under id 1 and amy under id 2. -/
def bobAmyStore : Store :=
  { userid := 2, usernames := [("bob", 1), ("amy", 2)],
    emails := [("bob@x.com", 1), ("amy@x.com", 2)],
    hashes := [("user:1", [("Id", "1"), ("Name", "bob"), ("Email", "bob@x.com")]),
               ("user:2", [("Id", "2"), ("Name", "amy"), ("Email", "amy@x.com")])] }

/-- A user whose id does not fit in 53 bits: `2^53 + 1`. -/
def bigIdUser : User := { Id := 9007199254740993, Name := "bob", Email := "bob@x.com" }

/-! ## Association-list facts -/

namespace Assoc

theorem get?_put_same {β : Type} (k : String) (v : β) (l : List (String × β)) :
    get? k (put k v l) = some v := by
  induction l with
  | nil => simp [put, get?]
  | cons p t ih =>
    obtain ⟨k0, v0⟩ := p
    by_cases h : k0 = k
    · simp [put, get?, h]
    · simp [put, get?, h, ih]

theorem get?_put_other {β : Type} {k k1 : String} (h : k ≠ k1) (v : β) (l : List (String × β)) :
    get? k1 (put k v l) = get? k1 l := by
  induction l with
  | nil => simp [put, get?, h]
  | cons p t ih =>
    obtain ⟨k0, v0⟩ := p
    by_cases h0 : k0 = k
    · subst h0
      simp [put, get?, h]
    · by_cases h1 : k0 = k1
      · subst h1
        simp [put, get?, h0]
      · simp [put, get?, h0, h1, ih]

theorem get?_del_same {β : Type} (k : String) (l : List (String × β)) :
    get? k (del k l) = none := by
  induction l with
  | nil => simp [del, get?]
  | cons p t ih =>
    obtain ⟨k0, v0⟩ := p
    by_cases h0 : k0 = k
    · simp [del, h0, ih]
    · simp [del, get?, h0, ih]

theorem get?_del_other {β : Type} {k k1 : String} (h : k ≠ k1) (l : List (String × β)) :
    get? k1 (del k l) = get? k1 l := by
  induction l with
  | nil => simp [del, get?]
  | cons p t ih =>
    obtain ⟨k0, v0⟩ := p
    by_cases h0 : k0 = k
    · subst h0
      simp [del, get?, h, ih]
    · by_cases h1 : k0 = k1
      · subst h1
        simp [del, get?, h0]
      · simp [del, get?, h0, h1, ih]

theorem del_of_get?_none {β : Type} {k : String} {l : List (String × β)}
    (h : get? k l = none) : del k l = l := by
  induction l with
  | nil => simp [del]
  | cons p t ih =>
    obtain ⟨k0, v0⟩ := p
    by_cases h0 : k0 = k
    · simp [get?, h0] at h
    · simp only [get?, h0, if_false] at h
      simp [del, h0, ih h]

end Assoc

/-! ## What a call does to the store -/

theorem exec_pair_none {a b : Option GoError} (h : redis.Exec [a, b] = none) :
    a = none ∧ b = none := by
  cases a with
  | some x => simp [redis.Exec] at h
  | none =>
    cases b with
    | some y => simp [redis.Exec] at h
    | none => exact ⟨rfl, rfl⟩

theorem zscoreErr_none {z : ZSet} {m : String} (h : redis.ZScoreErr z m = none) :
    (Assoc.get? m z).isSome = true := by
  unfold redis.ZScoreErr at h
  cases hx : Assoc.get? m z with
  | none => simp [hx] at h
  | some v => rfl

theorem create_cases (s : Store) (u : User) :
    (∃ e, UserDal.Create s u = (some e, u, s)) ∨
    (UserDal.Create s u = (none, { u with Id := s.userid + 1 }, createdStore s u) ∧
      (Assoc.get? u.Name s.usernames).isSome = true ∧
      (Assoc.get? u.Email s.emails).isSome = true ∧
      redis.ZScore s.usernames u.Name ≤ 0 ∧ redis.ZScore s.emails u.Email ≤ 0 ∧
      s.userid < 2 ^ 63 - 1) := by
  cases hx : redis.Exec [redis.ZScoreErr s.usernames u.Name, redis.ZScoreErr s.emails u.Email] with
  | some e =>
    left
    refine ⟨e, ?_⟩
    simp only [UserDal.Create, hx]
  | none =>
    obtain ⟨hn, he⟩ := exec_pair_none hx
    by_cases h : redis.ZScore s.usernames u.Name > 0 ∨ redis.ZScore s.emails u.Email > 0
    · left
      refine ⟨errors.New "user name and/or or email already exists", ?_⟩
      simp only [UserDal.Create, hx]
      rw [if_pos h]
    · by_cases hc : s.userid < 2 ^ 63 - 1
      · right
        refine ⟨?_, zscoreErr_none hn, zscoreErr_none he, by omega, by omega, hc⟩
        have hi : redis.Incr s.userid = .ok (s.userid + 1) := by
          unfold redis.Incr
          rw [if_pos hc]
        simp only [UserDal.Create, hx]
        rw [if_neg h, hi]
        rfl
      · left
        have hi : redis.Incr s.userid
            = .error (GoError.Reply "ERR increment or decrement would overflow") := by
          unfold redis.Incr
          rw [if_neg hc]
        refine ⟨GoError.Reply "ERR increment or decrement would overflow", ?_⟩
        simp only [UserDal.Create, hx]
        rw [if_neg h, hi]

theorem update_cases (s : Store) (id : Int) (u : User) :
    (∃ e, UserDal.Update s id u = (some e, s)) ∨
    ((UserDal.Update s id u).1 = none ∧
      (Assoc.get? u.Name s.usernames).isSome = true ∧
      (Assoc.get? u.Email s.emails).isSome = true ∧
      (UserDal.Update s id u).2 =
        { userid := s.userid,
          usernames := redis.ZAddXX s.usernames (float64 u.Id) u.Name,
          emails := redis.ZAddXX s.emails (float64 u.Id) u.Email,
          hashes := redis.HMSet s.hashes (getPrefixedDataStoreId u.Id)
            [("Id", toString u.Id), ("Name", u.Name), ("Email", u.Email)] }) := by
  cases hx : redis.Exec [redis.ZScoreErr s.usernames u.Name, redis.ZScoreErr s.emails u.Email] with
  | some e =>
    left
    refine ⟨e, ?_⟩
    simp only [UserDal.Update, hx]
  | none =>
    obtain ⟨hn, he⟩ := exec_pair_none hx
    by_cases h : redis.ZScore s.usernames u.Name = 0 ∨ redis.ZScore s.emails u.Email = 0
    · left
      refine ⟨errors.New "user name and/or or email does not exists", ?_⟩
      simp only [UserDal.Update, hx]
      rw [if_pos h]
    · right
      simp only [UserDal.Update, hx]
      rw [if_neg h]
      exact ⟨rfl, zscoreErr_none hn, zscoreErr_none he, rfl⟩

theorem update_userid (s : Store) (id : Int) (u : User) :
    (UserDal.Update s id u).2.userid = s.userid := by
  rcases update_cases s id u with ⟨e, h⟩ | ⟨-, -, -, h⟩
  · rw [h]
  · rw [h]

theorem delete_userid (s : Store) (id : Int) : (UserDal.Delete s id).2.userid = s.userid := rfl

theorem next_userid_le (s : Store) (op : Op) : s.userid ≤ (Op.next s op).userid := by
  cases op with
  | Create u =>
    rcases create_cases s u with ⟨e, h⟩ | ⟨h, -⟩
    · simp [Op.next, h]
    · simp [Op.next, h, createdStore]
  | Update id u => simp [Op.next, update_userid]
  | Delete id => simp [Op.next, delete_userid]
  | Get id => simp [Op.next]
  | Count id => simp [Op.next]

theorem assigned_eq_userid (s : Store) (op : Op) (i : Int) (h : Op.assigned s op = some i) :
    s.userid < i ∧ i = (Op.next s op).userid := by
  cases op with
  | Create u =>
    rcases create_cases s u with ⟨e, hc⟩ | ⟨hc, -⟩
    · simp [Op.assigned, hc] at h
    · simp only [Op.assigned, hc] at h
      simp only [Option.some.injEq] at h
      subst h
      simp [Op.next, hc, createdStore]
  | Update id u => simp [Op.assigned] at h
  | Delete id => simp [Op.assigned] at h
  | Get id => simp [Op.assigned] at h
  | Count id => simp [Op.assigned] at h

theorem assignedIds_gt (ops : List Op) :
    ∀ (s : Store), ∀ x ∈ assignedIds s ops, s.userid < x := by
  induction ops with
  | nil => intro s x hx; simp [assignedIds] at hx
  | cons op rest ih =>
    intro s x hx
    have hle := next_userid_le s op
    simp only [assignedIds] at hx
    cases ha : Op.assigned s op with
    | none =>
      rw [ha] at hx
      have := ih _ x hx
      omega
    | some i =>
      rw [ha] at hx
      rcases List.mem_cons.mp hx with rfl | hx
      · exact (assigned_eq_userid s op _ ha).1
      · have := ih _ x hx
        omega

theorem assignedIds_pairwise (ops : List Op) :
    ∀ (s : Store), (assignedIds s ops).Pairwise (fun a b => a < b) := by
  induction ops with
  | nil => intro s; simp [assignedIds]
  | cons op rest ih =>
    intro s
    simp only [assignedIds]
    cases ha : Op.assigned s op with
    | none => exact ih _
    | some i =>
      refine List.pairwise_cons.mpr ⟨?_, ih _⟩
      intro x hx
      have h1 := assignedIds_gt rest _ x hx
      have h2 := (assigned_eq_userid s op i ha).2
      omega

/-- A Create whose name or email is not a member of its index returns
`redis.Nil` and changes nothing. -/
theorem create_absent_member (s : Store) (u : User)
    (h : Assoc.get? u.Name s.usernames = none ∨ Assoc.get? u.Email s.emails = none) :
    UserDal.Create s u = (some GoError.Nil, u, s) := by
  have hx : redis.Exec [redis.ZScoreErr s.usernames u.Name, redis.ZScoreErr s.emails u.Email]
      = some GoError.Nil := by
    cases hn : Assoc.get? u.Name s.usernames with
    | none => simp [redis.Exec, redis.ZScoreErr, hn]
    | some v =>
      rcases h with h | h
      · rw [hn] at h; exact absurd h (by simp)
      · simp [redis.Exec, redis.ZScoreErr, hn, h]
  simp only [UserDal.Create, hx]

/-- An Update whose name or email is not a member of its index returns
`redis.Nil` and changes nothing. -/
theorem update_absent_member (s : Store) (id : Int) (u : User)
    (h : Assoc.get? u.Name s.usernames = none ∨ Assoc.get? u.Email s.emails = none) :
    UserDal.Update s id u = (some GoError.Nil, s) := by
  have hx : redis.Exec [redis.ZScoreErr s.usernames u.Name, redis.ZScoreErr s.emails u.Email]
      = some GoError.Nil := by
    cases hn : Assoc.get? u.Name s.usernames with
    | none => simp [redis.Exec, redis.ZScoreErr, hn]
    | some v =>
      rcases h with h | h
      · rw [hn] at h; exact absurd h (by simp)
      · simp [redis.Exec, redis.ZScoreErr, hn, h]
  simp only [UserDal.Update, hx]

/-- Whenever a score is above 0, Create fails and leaves the store and the user
struct as they were, whatever error it returns. -/
theorem create_positive_score_fails (s : Store) (u : User)
    (h : redis.ZScore s.usernames u.Name > 0 ∨ redis.ZScore s.emails u.Email > 0) :
    ∃ e, UserDal.Create s u = (some e, u, s) := by
  rcases create_cases s u with hc | ⟨-, -, -, hn, he, -⟩
  · exact hc
  · omega

/-- Whenever a score is 0, Update fails and leaves the store as it was,
whatever error it returns. -/
theorem update_zero_score_fails (s : Store) (id : Int) (u : User)
    (h : redis.ZScore s.usernames u.Name = 0 ∨ redis.ZScore s.emails u.Email = 0) :
    ∃ e, UserDal.Update s id u = (some e, s) := by
  cases hx : redis.Exec [redis.ZScoreErr s.usernames u.Name, redis.ZScoreErr s.emails u.Email] with
  | some e => exact ⟨e, by simp only [UserDal.Update, hx]⟩
  | none =>
    refine ⟨errors.New "user name and/or or email does not exists", ?_⟩
    simp only [UserDal.Update, hx]
    rw [if_pos h]

theorem created_empty (us : List User) : created Store.empty us = [] := by
  induction us with
  | nil => rfl
  | cons u rest ih =>
    have h : UserDal.Create Store.empty u = (some GoError.Nil, u, Store.empty) :=
      create_absent_member Store.empty u (Or.inl rfl)
    simp only [created, h]
    exact ih

/-! ## Record keys are different for different ids -/

theorem digitChar_val (k : Nat) (hk : k < 10) : (Nat.digitChar k).toNat - 48 = k := by
  interval_cases k <;> rfl

theorem digitChar_ne_minus (k : Nat) (hk : k < 10) : Nat.digitChar k ≠ '-' := by
  interval_cases k <;> decide

theorem toDigitsCore_val (fuel : Nat) :
    ∀ (n : Nat) (ds : List Char), n < fuel →
      (Nat.toDigitsCore 10 fuel n ds).foldl (fun a c => 10 * a + (c.toNat - 48)) 0
        = ds.foldl (fun a c => 10 * a + (c.toNat - 48)) n := by
  induction fuel with
  | zero => intro n ds h; omega
  | succ fuel ih =>
    intro n ds h
    simp only [Nat.toDigitsCore]
    have hd := digitChar_val (n % 10) (Nat.mod_lt _ (by norm_num))
    split
    · rename_i h0
      simp only [List.foldl_cons, hd]
      congr 1
      omega
    · rename_i h0
      rw [ih (n / 10) _ (by omega)]
      simp only [List.foldl_cons, hd]
      congr 1
      omega

theorem toDigitsCore_no_minus (fuel : Nat) :
    ∀ (n : Nat) (ds : List Char), '-' ∉ ds → '-' ∉ Nat.toDigitsCore 10 fuel n ds := by
  induction fuel with
  | zero => intro n ds h; simpa [Nat.toDigitsCore] using h
  | succ fuel ih =>
    intro n ds h
    have hd := digitChar_ne_minus (n % 10) (Nat.mod_lt _ (by norm_num))
    have h2 : '-' ∉ Nat.digitChar (n % 10) :: ds := by
      simp only [List.mem_cons, not_or]
      exact ⟨fun e => hd e.symm, h⟩
    simp only [Nat.toDigitsCore]
    split
    · exact h2
    · exact ih _ _ h2

theorem natRepr_val (n : Nat) : digitsVal (Nat.repr n).data = n := by
  simp only [Nat.repr, Nat.toDigits, List.asString, digitsVal]
  rw [toDigitsCore_val (n + 1) n [] (by omega)]
  rfl

theorem natRepr_no_minus (n : Nat) : '-' ∉ (Nat.repr n).data := by
  simp only [Nat.repr, Nat.toDigits, List.asString]
  exact toDigitsCore_no_minus _ _ _ (by simp)

theorem natRepr_injective {a b : Nat} (h : Nat.repr a = Nat.repr b) : a = b := by
  rw [← natRepr_val a, ← natRepr_val b, h]

theorem intToString_injective {a b : Int} (h : toString a = toString b) : a = b := by
  cases a with
  | ofNat m =>
    cases b with
    | ofNat k =>
      have : Nat.repr m = Nat.repr k := h
      rw [natRepr_injective this]
    | negSucc k =>
      exfalso
      have h1 : Nat.repr m = "-" ++ Nat.repr (k + 1) := h
      have h2 := natRepr_no_minus m
      rw [h1] at h2
      simp [String.data_append] at h2
  | negSucc m =>
    cases b with
    | ofNat k =>
      exfalso
      have h1 : "-" ++ Nat.repr (m + 1) = Nat.repr k := h
      have h2 := natRepr_no_minus k
      rw [← h1] at h2
      simp [String.data_append] at h2
    | negSucc k =>
      have h1 : "-" ++ Nat.repr (m + 1) = "-" ++ Nat.repr (k + 1) := h
      have h2 := congrArg String.data h1
      simp only [String.data_append, List.append_cancel_left_eq] at h2
      have h3 : Nat.repr (m + 1) = Nat.repr (k + 1) := String.ext h2
      have := natRepr_injective h3
      have : m = k := by omega
      rw [this]


theorem getPrefixedDataStoreId_injective {a b : Int}
    (h : getPrefixedDataStoreId a = getPrefixedDataStoreId b) : a = b := by
  unfold getPrefixedDataStoreId at h
  have h2 := congrArg String.data h
  simp only [String.data_append, List.append_cancel_left_eq] at h2
  exact intToString_injective (String.ext h2)


/-! ## Index consistency of particular stores -/

theorem indexConsistent_empty : IndexConsistent Store.empty := by
  intro id h
  simp [redis.Exists, Store.empty, Assoc.get?] at h

theorem index_pair (a b : String) (hab : a ≠ b) (m : String) :
    (Assoc.get? m ([(a, 1), (b, 2)] : ZSet) = some 1 ↔ m = a) ∧
    (Assoc.get? m ([(a, 1), (b, 2)] : ZSet) = some 2 ↔ m = b) := by
  by_cases ha : a = m
  · subst ha
    simp [Assoc.get?, hab]
  · by_cases hb : b = m
    · subst hb
      simp [Assoc.get?, ha, Ne.symm ha]
    · simp [Assoc.get?, ha, hb, Ne.symm ha, Ne.symm hb]

theorem indexConsistent_bobAmyStore : IndexConsistent bobAmyStore := by
  intro id hex
  have hid : id = 1 ∨ id = 2 := by
    by_cases h1 : getPrefixedDataStoreId 1 = getPrefixedDataStoreId id
    · exact Or.inl (getPrefixedDataStoreId_injective h1).symm
    · by_cases h2 : getPrefixedDataStoreId 2 = getPrefixedDataStoreId id
      · exact Or.inr (getPrefixedDataStoreId_injective h2).symm
      · exfalso
        have e1 : getPrefixedDataStoreId 1 = "user:1" := by decide
        have e2 : getPrefixedDataStoreId 2 = "user:2" := by decide
        rw [e1] at h1
        rw [e2] at h2
        simp [redis.Exists, bobAmyStore, Assoc.get?, h1, h2] at hex
  rcases hid with rfl | rfl
  · have hn : storedName bobAmyStore 1 = "bob" := by decide
    have he : storedEmail bobAmyStore 1 = "bob@x.com" := by decide
    have hf : float64 1 = 1 := by decide
    rw [hn, he, hf]
    exact ⟨fun m => (index_pair "bob" "amy" (by decide) m).1,
           fun m => (index_pair "bob@x.com" "amy@x.com" (by decide) m).1⟩
  · have hn : storedName bobAmyStore 2 = "amy" := by decide
    have he : storedEmail bobAmyStore 2 = "amy@x.com" := by decide
    have hf : float64 2 = 2 := by decide
    rw [hn, he, hf]
    exact ⟨fun m => (index_pair "bob" "amy" (by decide) m).2,
           fun m => (index_pair "bob@x.com" "amy@x.com" (by decide) m).2⟩

theorem get?_put_idem {β : Type} {k : String} {v : β} {l : List (String × β)}
    (h : Assoc.get? k l = some v) (m : String) :
    Assoc.get? m (Assoc.put k v l) = Assoc.get? m l := by
  by_cases hm : k = m
  · subst hm
    rw [Assoc.get?_put_same, h]
  · exact Assoc.get?_put_other hm v l

theorem zaddxx_same_score {z : ZSet} {m : String} {sc : Int}
    (h : Assoc.get? m z = some sc) (k : String) :
    Assoc.get? k (redis.ZAddXX z sc m) = Assoc.get? k z := by
  simp only [redis.ZAddXX, h, Option.isSome_some, if_true]
  exact get?_put_idem h k

theorem hgetall_hmset_same (hs : List (String × Hash)) (k : String)
    (fields : List (String × String)) :
    redis.HGetAll (redis.HMSet hs k fields) k
      = fields.foldl (fun h kv => Assoc.put kv.1 kv.2 h) (redis.HGetAll hs k) := by
  simp [redis.HGetAll, redis.HMSet, Assoc.get?_put_same]

theorem get?_hmset_other (hs : List (String × Hash)) {k k1 : String} (h : k ≠ k1)
    (fields : List (String × String)) :
    Assoc.get? k1 (redis.HMSet hs k fields) = Assoc.get? k1 hs := by
  simp [redis.HMSet, Assoc.get?_put_other h]

theorem decode_hmset (hs : List (String × Hash)) (k i n e : String) :
    (mapstructure.Decode
        (redis.HGetAll (redis.HMSet hs k [("Id", i), ("Name", n), ("Email", e)]) k) User.zero).1
      = { Id := 0, Name := n, Email := e } := by
  rw [hgetall_hmset_same]
  simp only [List.foldl, mapstructure.Decode, mapstructure.entry]
  rw [Assoc.get?_put_other (by decide), Assoc.get?_put_same, Assoc.get?_put_same]
  rfl

/-- An Update that names entries already scored with the user's own id, for a
user whose record is stored, keeps index consistency. -/
theorem indexConsistent_update_own {s : Store} (hc : IndexConsistent s) (id : Int) (u : User)
    (hn : Assoc.get? u.Name s.usernames = some (float64 u.Id))
    (he : Assoc.get? u.Email s.emails = some (float64 u.Id))
    (hr : redis.Exists s.hashes (getPrefixedDataStoreId u.Id) = 1) :
    IndexConsistent (UserDal.Update s id u).2 := by
  rcases update_cases s id u with ⟨e, h⟩ | ⟨-, -, -, h⟩
  · rw [h]; exact hc
  · rw [h]
    obtain ⟨own, owe⟩ := hc u.Id hr
    have un : u.Name = storedName s u.Id := (own u.Name).mp hn
    have ue : u.Email = storedEmail s u.Id := (owe u.Email).mp he
    intro j hex
    by_cases hj : j = u.Id
    · subst hj
      have sn : storedName
          { userid := s.userid,
            usernames := redis.ZAddXX s.usernames (float64 u.Id) u.Name,
            emails := redis.ZAddXX s.emails (float64 u.Id) u.Email,
            hashes := redis.HMSet s.hashes (getPrefixedDataStoreId u.Id)
              [("Id", toString u.Id), ("Name", u.Name), ("Email", u.Email)] } u.Id = u.Name := by
        simp only [storedName, decode_hmset]
      have se : storedEmail
          { userid := s.userid,
            usernames := redis.ZAddXX s.usernames (float64 u.Id) u.Name,
            emails := redis.ZAddXX s.emails (float64 u.Id) u.Email,
            hashes := redis.HMSet s.hashes (getPrefixedDataStoreId u.Id)
              [("Id", toString u.Id), ("Name", u.Name), ("Email", u.Email)] } u.Id = u.Email := by
        simp only [storedEmail, decode_hmset]
      rw [sn, se]
      refine ⟨fun m => ?_, fun m => ?_⟩
      · show Assoc.get? m (redis.ZAddXX s.usernames (float64 u.Id) u.Name) = _ ↔ _
        rw [zaddxx_same_score hn, un]
        exact own m
      · show Assoc.get? m (redis.ZAddXX s.emails (float64 u.Id) u.Email) = _ ↔ _
        rw [zaddxx_same_score he, ue]
        exact owe m
    · have hk : getPrefixedDataStoreId u.Id ≠ getPrefixedDataStoreId j :=
        fun e => hj (getPrefixedDataStoreId_injective e).symm
      have hget : Assoc.get? (getPrefixedDataStoreId j)
          (redis.HMSet s.hashes (getPrefixedDataStoreId u.Id)
            [("Id", toString u.Id), ("Name", u.Name), ("Email", u.Email)])
          = Assoc.get? (getPrefixedDataStoreId j) s.hashes := get?_hmset_other _ hk _
      have hex0 : redis.Exists s.hashes (getPrefixedDataStoreId j) = 1 := by
        simpa [redis.Exists, hget] using hex
      obtain ⟨cn, ce⟩ := hc j hex0
      refine ⟨fun m => ?_, fun m => ?_⟩
      · show Assoc.get? m (redis.ZAddXX s.usernames (float64 u.Id) u.Name) = _ ↔
          m = (mapstructure.Decode (redis.HGetAll (redis.HMSet s.hashes _ _) _) User.zero).1.Name
        rw [zaddxx_same_score hn]
        simp only [redis.HGetAll, hget]
        exact cn m
      · show Assoc.get? m (redis.ZAddXX s.emails (float64 u.Id) u.Email) = _ ↔
          m = (mapstructure.Decode (redis.HGetAll (redis.HMSet s.hashes _ _) _) User.zero).1.Email
        rw [zaddxx_same_score he]
        simp only [redis.HGetAll, hget]
        exact ce m

/-! ## Sample runs -/

/-- On the empty store a Create returns `redis.Nil` and writes nothing. -/
theorem create_on_empty_store :
    UserDal.Create Store.empty { Id := 0, Name := "bob", Email := "bob@x.com" }
      = (some GoError.Nil, { Id := 0, Name := "bob", Email := "bob@x.com" }, Store.empty) := by
  decide

/-- Where name and email are members scored 0, the same user is created twice. -/
theorem created_sample :
    created reservedStore
      [{ Id := 0, Name := "bob", Email := "bob@x.com" },
       { Id := 0, Name := "amy", Email := "amy@x.com" },
       { Id := 0, Name := "bob", Email := "bob@x.com" }]
    = [{ Id := 0, Name := "bob", Email := "bob@x.com" },
       { Id := 0, Name := "bob", Email := "bob@x.com" }] := by
  decide

theorem assignedIds_sample :
    assignedIds reservedStore
      [.Create { Id := 0, Name := "bob", Email := "bob@x.com" },
       .Create { Id := 0, Name := "amy", Email := "amy@x.com" },
       .Get 1,
       .Create { Id := 0, Name := "bob", Email := "bob@x.com" },
       .Update 1 { Id := -4, Name := "bob", Email := "bob@x.com" },
       .Count 2,
       .Create { Id := 0, Name := "bob", Email := "bob@x.com" },
       .Delete 1,
       .Create { Id := 0, Name := "bob", Email := "bob@x.com" }]
    = [1, 2, 3] := by
  decide

/-! ## Create and Update: rejection paths, and the unused `id` of Update -/

/-- C1. Duplicate rejection, evaluated: alice is stored, so her name scores 1 in
the name index; creating another alice with the new email new@x.com leaves the
store and the user struct untouched, but the error returned is `redis.Nil` (the
new email is not a member of the email index), not the duplicate error. -/
theorem create_duplicate_returns_nil :
    redis.ZScore aliceStore.usernames "alice" > 0 ∧
    UserDal.Create aliceStore { Id := 0, Name := "alice", Email := "new@x.com" }
      = (some GoError.Nil, { Id := 0, Name := "alice", Email := "new@x.com" }, aliceStore) ∧
    (UserDal.Create aliceStore { Id := 0, Name := "alice", Email := "new@x.com" }).1
      ≠ some (errors.New "user name and/or or email already exists") := by
  decide

/-- C6. Update requires existence, evaluated: bob is stored and bob2 is not a
member of the name index (it scores 0); the Update of user 1 to the name bob2
leaves the store untouched, but the error returned is `redis.Nil`, not the
not-found error. -/
theorem update_absent_returns_nil :
    redis.ZScore bobStore.usernames "bob2" = 0 ∧
    UserDal.Update bobStore 1 { Id := 1, Name := "bob2", Email := "bob@x.com" }
      = (some GoError.Nil, bobStore) ∧
    (UserDal.Update bobStore 1 { Id := 1, Name := "bob2", Email := "bob@x.com" }).1
      ≠ some (errors.New "user name and/or or email does not exists") := by
  decide

/-- C10. Update never reads its id argument: for any two ids the call returns
the same error and the same store; and when it does not fail, the scores it
leaves on the user's name and email are `float64(user.Id)` and a record is
stored under the key of `user.Id`, whatever id was passed. -/
theorem update_ignores_id (s : Store) (u : User) (id1 id2 : Int) :
    UserDal.Update s id1 u = UserDal.Update s id2 u ∧
    ((UserDal.Update s id1 u).1 ≠ none ∨
      (redis.ZScore (UserDal.Update s id1 u).2.usernames u.Name = float64 u.Id ∧
       redis.ZScore (UserDal.Update s id1 u).2.emails u.Email = float64 u.Id ∧
       redis.Exists (UserDal.Update s id1 u).2.hashes (getPrefixedDataStoreId u.Id) = 1)) := by
  refine ⟨rfl, ?_⟩
  rcases update_cases s id1 u with ⟨e, h⟩ | ⟨-, hn, he, h⟩
  · left
    rw [h]
    simp
  · right
    rw [h]
    refine ⟨?_, ?_, ?_⟩
    · simp [redis.ZScore, redis.ZAddXX, hn, Assoc.get?_put_same]
    · simp [redis.ZScore, redis.ZAddXX, he, Assoc.get?_put_same]
    · simp [redis.Exists, redis.HMSet, Assoc.get?_put_same]

/-! ## Reading back and deleting -/

/-- C4. Round trip, evaluated: in a store whose indexes hold bob and bob@x.com
with score 0, Create succeeds for bob and sets his id to 1; the Get of id 1
that follows succeeds but returns bob with id 0, not the user Create left
behind.  The stored `Id` entry is a string, the strict decoder does not convert
it, and Get drops the decoder's error. -/
theorem get_after_create_loses_id :
    UserDal.Create reservedStore { Id := 0, Name := "bob", Email := "bob@x.com" }
      = (none, { Id := 1, Name := "bob", Email := "bob@x.com" },
         { userid := 1, usernames := [("bob", 0)], emails := [("bob@x.com", 0)],
           hashes := [("user:1", [("Id", "1"), ("Name", "bob"), ("Email", "bob@x.com")])] }) ∧
    UserDal.Get
        (UserDal.Create reservedStore { Id := 0, Name := "bob", Email := "bob@x.com" }).2.2 1
      = (some { Id := 0, Name := "bob", Email := "bob@x.com" }, none) ∧
    UserDal.Get
        (UserDal.Create reservedStore { Id := 0, Name := "bob", Email := "bob@x.com" }).2.2 1
      ≠ (some { Id := 1, Name := "bob", Email := "bob@x.com" }, none) := by
  decide

/-- C8. Conversion failures, evaluated.  For bob's record as a Create writes it
(the `Id` entry is the decimal string of the id), and for a record whose `Id`
entry is not a number, the decoder reports an error, and Get still returns a
user and no error. -/
theorem get_drops_decode_error :
    ((mapstructure.Decode (redis.HGetAll bobStore.hashes (getPrefixedDataStoreId 1))
        User.zero).2 ≠ none ∧
     UserDal.Get bobStore 1 = (some { Id := 0, Name := "bob", Email := "bob@x.com" }, none)) ∧
    ((mapstructure.Decode (redis.HGetAll garbledStore.hashes (getPrefixedDataStoreId 1))
        User.zero).2 ≠ none ∧
     UserDal.Get garbledStore 1 = (some { Id := 0, Name := "bob", Email := "bob@x.com" }, none)) := by
  decide

/-- C5. Delete, evaluated.  First input: bob is stored under id 1; Delete(1)
succeeds and removes his name and email from the indexes, but his record is
still there: Count(1) is 1 and Get(1) does not return the zero user.  Second
input: eve is stored under the key of id 5 with an `Id` entry that says 7;
Delete(5) again leaves her record in place. -/
theorem delete_leaves_record :
    (UserDal.Count bobStore 1 = (1, none) ∧
     (UserDal.Delete bobStore 1).1 = none ∧
     redis.ZScore (UserDal.Delete bobStore 1).2.usernames "bob" = 0 ∧
     redis.ZScore (UserDal.Delete bobStore 1).2.emails "bob@x.com" = 0 ∧
     UserDal.Count (UserDal.Delete bobStore 1).2 1 = (1, none) ∧
     UserDal.Get (UserDal.Delete bobStore 1).2 1 ≠ (some User.zero, none)) ∧
    (UserDal.Count eveStore 5 = (1, none) ∧
     (UserDal.Delete eveStore 5).1 = none ∧
     UserDal.Count (UserDal.Delete eveStore 5).2 5 = (1, none) ∧
     UserDal.Get (UserDal.Delete eveStore 5).2 5 ≠ (some User.zero, none)) := by
  decide

/-- C9 as stated fails: nothing is stored under the key of id 5, yet Delete(5)
removes the index entry of the user named by the empty string and the record
stored under the key of id 0. -/
theorem delete_missing_not_noop :
    redis.Exists zeroStore.hashes (getPrefixedDataStoreId 5) = 0 ∧
    (UserDal.Delete zeroStore 5).1 = none ∧
    redis.ZScore zeroStore.usernames "" = 3 ∧
    redis.ZScore (UserDal.Delete zeroStore 5).2.usernames "" = 0 ∧
    redis.Exists zeroStore.hashes (getPrefixedDataStoreId 0) = 1 ∧
    redis.Exists (UserDal.Delete zeroStore 5).2.hashes (getPrefixedDataStoreId 0) = 0 ∧
    (UserDal.Delete zeroStore 5).2 ≠ zeroStore := by
  decide

theorem exists_zero {hs : List (String × Hash)} {k : String} (h : redis.Exists hs k = 0) :
    Assoc.get? k hs = none := by
  cases hx : Assoc.get? k hs with
  | none => rfl
  | some v => simp [redis.Exists, hx] at h

theorem delete_missing (s : Store) (id : Int)
    (h : redis.Exists s.hashes (getPrefixedDataStoreId id) = 0) :
    UserDal.Delete s id =
      (none, { userid := s.userid, usernames := redis.ZRem s.usernames "",
               emails := redis.ZRem s.emails "",
               hashes := redis.Del s.hashes (getPrefixedDataStoreId 0) }) := by
  have hu : (mapstructure.Decode (redis.HGetAll s.hashes (getPrefixedDataStoreId id))
      User.zero).1 = User.zero := by
    simp [redis.HGetAll, exists_zero h, mapstructure.Decode, mapstructure.entry, Assoc.get?,
      User.zero]
  simp only [UserDal.Delete, hu]
  rfl

/-- C9, amended. When no record is stored under the key of `id`, Delete(id)
returns success, leaves the counter alone, leaves every record stored under a
key other than that of id 0 as it was, and leaves every member of the two
indexes other than the empty string as it was; an index of which the empty
string is not a member is unchanged; and the whole store is unchanged when the
empty string is a member of neither index and nothing is stored under the key
of id 0. -/
theorem delete_missing_noop (s : Store) (id : Int)
    (h : redis.Exists s.hashes (getPrefixedDataStoreId id) = 0) :
    (UserDal.Delete s id).1 = none ∧
    (UserDal.Delete s id).2.userid = s.userid ∧
    (∀ k, k ≠ getPrefixedDataStoreId 0 →
      Assoc.get? k (UserDal.Delete s id).2.hashes = Assoc.get? k s.hashes) ∧
    (∀ m, m ≠ "" →
      Assoc.get? m (UserDal.Delete s id).2.usernames = Assoc.get? m s.usernames) ∧
    (∀ m, m ≠ "" →
      Assoc.get? m (UserDal.Delete s id).2.emails = Assoc.get? m s.emails) ∧
    (Assoc.get? "" s.usernames = none → (UserDal.Delete s id).2.usernames = s.usernames) ∧
    (Assoc.get? "" s.emails = none → (UserDal.Delete s id).2.emails = s.emails) ∧
    (Assoc.get? "" s.usernames = none → Assoc.get? "" s.emails = none →
      redis.Exists s.hashes (getPrefixedDataStoreId 0) = 0 → UserDal.Delete s id = (none, s)) := by
  rw [delete_missing s id h]
  refine ⟨rfl, rfl, ?_, ?_, ?_, ?_, ?_, ?_⟩
  · intro k hk
    exact Assoc.get?_del_other (Ne.symm hk) _
  · intro m hm
    exact Assoc.get?_del_other (Ne.symm hm) _
  · intro m hm
    exact Assoc.get?_del_other (Ne.symm hm) _
  · intro hn
    exact Assoc.del_of_get?_none hn
  · intro he
    exact Assoc.del_of_get?_none he
  · intro hn he h0
    have zn : redis.ZRem s.usernames "" = s.usernames := Assoc.del_of_get?_none hn
    have ze : redis.ZRem s.emails "" = s.emails := Assoc.del_of_get?_none he
    have zh : redis.Del s.hashes (getPrefixedDataStoreId 0) = s.hashes :=
      Assoc.del_of_get?_none (exists_zero h0)
    rw [zn, ze, zh]

/-- C9, amended, at concrete inputs.  In the store of the counterexample,
Delete(5) succeeds, keeps the counter at 3 and keeps the record under the key
of id 3 and the name zed; in the store holding only bob, nothing is stored
under the key of id 5 and Delete(5) changes nothing. -/
theorem delete_missing_noop_witness :
    (redis.Exists zeroStore.hashes (getPrefixedDataStoreId 5) = 0 ∧
     (UserDal.Delete zeroStore 5).1 = none ∧
     (UserDal.Delete zeroStore 5).2.userid = 3 ∧
     Assoc.get? "user:3" (UserDal.Delete zeroStore 5).2.hashes
       = Assoc.get? "user:3" zeroStore.hashes ∧
     Assoc.get? "zed" (UserDal.Delete zeroStore 5).2.usernames = some 0) ∧
    (redis.Exists bobStore.hashes (getPrefixedDataStoreId 5) = 0 ∧
     UserDal.Delete bobStore 5 = (none, bobStore)) :=
  ⟨⟨by decide,
    (delete_missing_noop zeroStore 5 (by decide)).1,
    (delete_missing_noop zeroStore 5 (by decide)).2.1,
    (delete_missing_noop zeroStore 5 (by decide)).2.2.1 "user:3" (by decide),
    ((delete_missing_noop zeroStore 5 (by decide)).2.2.2.1 "zed" (by decide)).trans (by decide)⟩,
   ⟨by decide,
    (delete_missing_noop bobStore 5 (by decide)).2.2.2.2.2.2.2 (by decide) (by decide)
      (by decide)⟩⟩

/-! ## Index consistency along calls -/

/-- C7 as stated fails: the store holding bob (id 1) and amy (id 2) is index
consistent, the Update of user 1 to amy's name succeeds, and afterwards the
record of id 2 still carries the name amy while the only score of amy in the
name index is 1. -/
theorem update_breaks_index_consistency :
    IndexConsistent bobAmyStore ∧
    (UserDal.Update bobAmyStore 1 { Id := 1, Name := "amy", Email := "bob@x.com" }).1 = none ∧
    ¬ IndexConsistent
        (UserDal.Update bobAmyStore 1 { Id := 1, Name := "amy", Email := "bob@x.com" }).2 := by
  refine ⟨indexConsistent_bobAmyStore, by decide, ?_⟩
  intro h
  have h2 := ((h 2 (by decide)).1 "amy").mpr (by decide)
  revert h2
  decide

/-- C7, amended. Index consistency holds in the empty store, and on a store
where it holds it is kept by every Create that fails, by every Update that
fails, and by every Update of a user whose record is stored and whose name and
email are already scored with that user's own id. -/
theorem index_consistency_kept (s : Store) (hc : IndexConsistent s) :
    IndexConsistent Store.empty ∧
    (∀ u, (UserDal.Create s u).1 ≠ none → IndexConsistent (UserDal.Create s u).2.2) ∧
    (∀ id u, (UserDal.Update s id u).1 ≠ none → IndexConsistent (UserDal.Update s id u).2) ∧
    (∀ id u, Assoc.get? u.Name s.usernames = some (float64 u.Id) →
      Assoc.get? u.Email s.emails = some (float64 u.Id) →
      redis.Exists s.hashes (getPrefixedDataStoreId u.Id) = 1 →
      IndexConsistent (UserDal.Update s id u).2) := by
  refine ⟨indexConsistent_empty, ?_, ?_, ?_⟩
  · intro u hf
    rcases create_cases s u with ⟨e, h⟩ | ⟨h, -⟩
    · rw [h]; exact hc
    · rw [h] at hf; exact absurd rfl hf
  · intro id u hf
    rcases update_cases s id u with ⟨e, h⟩ | ⟨h, -⟩
    · rw [h]; exact hc
    · exact absurd h hf
  · intro id u hn he hr
    exact indexConsistent_update_own hc id u hn he hr

/-- C7, amended, at a concrete input: on the store holding bob and amy, the
Create of a second bob is rejected, the Update to the unknown name bob2 is
rejected, the Update of bob under his own name, email and id succeeds, and
index consistency holds after each. -/
theorem index_consistency_kept_witness :
    IndexConsistent bobAmyStore ∧
    ((UserDal.Create bobAmyStore { Id := 0, Name := "bob", Email := "amy@x.com" }).1 ≠ none ∧
     IndexConsistent
      (UserDal.Create bobAmyStore { Id := 0, Name := "bob", Email := "amy@x.com" }).2.2) ∧
    ((UserDal.Update bobAmyStore 1 { Id := 1, Name := "bob2", Email := "bob@x.com" }).1 ≠ none ∧
     IndexConsistent
      (UserDal.Update bobAmyStore 1 { Id := 1, Name := "bob2", Email := "bob@x.com" }).2) ∧
    ((UserDal.Update bobAmyStore 1 { Id := 1, Name := "bob", Email := "bob@x.com" }).1 = none ∧
     IndexConsistent
      (UserDal.Update bobAmyStore 1 { Id := 1, Name := "bob", Email := "bob@x.com" }).2) :=
  ⟨indexConsistent_bobAmyStore,
   ⟨by decide,
    (index_consistency_kept bobAmyStore indexConsistent_bobAmyStore).2.1 _ (by decide)⟩,
   ⟨by decide,
    (index_consistency_kept bobAmyStore indexConsistent_bobAmyStore).2.2.1 _ _ (by decide)⟩,
   ⟨by decide,
    (index_consistency_kept bobAmyStore indexConsistent_bobAmyStore).2.2.2 1
      { Id := 1, Name := "bob", Email := "bob@x.com" } (by decide) (by decide) (by decide)⟩⟩

/-! ## Uniqueness -/

/-- C2. Uniqueness invariant: in every run of Create calls from the empty store
no two of the calls that succeed carry the same name and no two carry the same
email.  It holds because no call of such a run succeeds: each finds its name
absent from the name index and returns `redis.Nil`. -/
theorem create_unique (us : List User) :
    ((created Store.empty us).map User.Name).Nodup ∧
    ((created Store.empty us).map User.Email).Nodup ∧
    created Store.empty us = [] := by
  rw [created_empty]
  simp

/-! ## Ids -/

/-- C3. Id monotonicity: in every run of Create, Update, Delete, Get and Count
calls from any store, the ids assigned by the successful Creates are strictly
increasing in call order (each is smaller than every id assigned after it), so
none is assigned twice, whatever failed Creates and deletions lie in between. -/
theorem ids_strictly_increasing (s : Store) (ops : List Op) :
    (assignedIds s ops).Pairwise (fun a b => a < b) ∧ (assignedIds s ops).Nodup :=
  ⟨assignedIds_pairwise ops s,
   (assignedIds_pairwise ops s).imp (fun h => ne_of_lt h)⟩

end UserStore
